import Mathlib

/-
Verification of the model mapping engine of this repository:
`resources/resource_classes/data_models/base.py` — the `BaseModel`
`to_dict` / `from_dict` codec — together with the record types of
`data_models/timeline.py` and `data_models/mdto.py` that instantiate
it.

Encoding (`to_dict` / `_serialize_value`) is value-directed
(`isinstance` tests on runtime values) and handles datetimes, nested
dataclasses and containers.  Decoding (`from_dict` /
`_deserialize_value`) receives as `typ` the dataclass field
descriptor's `.type`, which — because every model module opens with
`from __future__ import annotations` (PEP 563) — is the annotation
STRING, never a resolved type object; every type test of
`_deserialize_value` is therefore constantly false and the function
reduces to a passthrough (`None` in, `None` out; anything else
unchanged).  The embedding models this reduced decoder literally and
records in its doc-comments which source test each dead branch
corresponds to.

The embedding models Python values by the inductive `Val`, the
repository's record classes by the enumerated `RName` with their field
descriptors (names, annotation strings, defaults) in `recFields`, and
Python's `datetime` by `DT` (proleptic Gregorian calendar, years
1..9999, as in CPython's `datetime`, with `zoneinfo` offsets for the
zone the code uses).
-/

namespace OBM

/-! ## Proleptic Gregorian calendar (model of Python `datetime`'s
calendar; `datetime.MINYEAR = 1`, `datetime.MAXYEAR = 9999`). -/

def isLeap (y : Nat) : Bool := y % 4 == 0 && (y % 100 != 0 || y % 400 == 0)

def daysInMonth (y m : Nat) : Nat :=
  if m = 2 then (if isLeap y then 29 else 28)
  else if m = 4 ∨ m = 6 ∨ m = 9 ∨ m = 11 then 30 else 31

def daysInYear (y : Nat) : Nat := if isLeap y then 366 else 365

/-- Days of year `y` that precede the first day of month `m` (1-based). -/
def monthOfs (y : Nat) : Nat → Nat
  | 0 => 0
  | 1 => 0
  | m + 1 => monthOfs y m + daysInMonth y m

/-- Day number (0 = 0001-01-01) of January 1st of year `y` (`y ≥ 1`):
365 days per elapsed year plus one per elapsed leap year. -/
def yearOfs (y : Nat) : Nat :=
  365 * (y - 1) + (y - 1) / 4 + (y - 1) / 400 - (y - 1) / 100

/-- Day number (0 = 0001-01-01) of the civil date `y-m-d`. -/
def rd (y m d : Nat) : Nat := yearOfs y + monthOfs y m + (d - 1)

/-- Year walk inverting `yearOfs`: starting at year `y`, peel whole years
off the day count `n`; returns `(year, day-of-year)`. -/
def splitYear : Nat → Nat → Nat → Nat × Nat
  | 0, y, n => (y, n)
  | fuel + 1, y, n =>
    if n < daysInYear y then (y, n) else splitYear fuel (y + 1) (n - daysInYear y)

/-- Month walk inverting `monthOfs`: starting at month `m`, peel whole
months off the day-of-year `doy`; returns `(month, day)` (day 1-based). -/
def splitMonth : Nat → Nat → Nat → Nat → Nat × Nat
  | 0, _, m, doy => (m, doy + 1)
  | fuel + 1, y, m, doy =>
    if doy < daysInMonth y m then (m, doy + 1)
    else splitMonth fuel y (m + 1) (doy - daysInMonth y m)

/-- Civil date of day number `n` (inverse of `rd`).  The year walk
starts at the opening year of the 400-year era containing `n`
(146097 days per era), so it takes at most 400 steps. -/
def rdInv (n : Nat) : Nat × Nat × Nat :=
  let yd := splitYear 500 (400 * (n / 146097) + 1) (n % 146097)
  let md := splitMonth 12 yd.1 1 yd.2
  (yd.1, md.1, md.2)

theorem daysInYear_ge (y : Nat) : 365 ≤ daysInYear y := by
  unfold daysInYear; split <;> omega

theorem daysInMonth_pos (y m : Nat) : 1 ≤ daysInMonth y m := by
  unfold daysInMonth; split
  · split <;> omega
  · split <;> omega

theorem monthOfs_succ (y m : Nat) (hm : 1 ≤ m) :
    monthOfs y (m + 1) = monthOfs y m + daysInMonth y m := by
  match m, hm with
  | m + 1, _ => rfl

theorem monthOfs_one (y : Nat) : monthOfs y 1 = 0 := rfl

theorem monthOfs_mono (y : Nat) {a b : Nat} (h : a ≤ b) :
    monthOfs y a ≤ monthOfs y b := by
  induction b with
  | zero => simp_all
  | succ b ih =>
    rcases Nat.lt_or_ge a (b + 1) with h' | h'
    · have h1 := ih (by omega)
      have h2 : monthOfs y b ≤ monthOfs y (b + 1) := by
        match b with
        | 0 => exact Nat.le_refl 0
        | b + 1 => rw [monthOfs_succ y (b + 1) (by omega)]; omega
      omega
    · have he : a = b + 1 := by omega
      rw [he]

theorem monthOfs_13 (y : Nat) : monthOfs y 13 = daysInYear y := by
  cases h : isLeap y <;>
    simp [monthOfs, daysInMonth, daysInYear, h]

theorem daysInYear_leap_iff (y : Nat) :
    daysInYear y = if y % 4 = 0 ∧ (y % 100 ≠ 0 ∨ y % 400 = 0) then 366 else 365 := by
  unfold daysInYear isLeap
  by_cases h4 : y % 4 = 0 <;> by_cases h100 : y % 100 = 0 <;>
    by_cases h400 : y % 400 = 0 <;> simp [h4, h100, h400]

set_option maxHeartbeats 800000 in
theorem yearOfs_succ {y : Nat} (h : 1 ≤ y) :
    yearOfs (y + 1) = yearOfs y + daysInYear y := by
  rw [daysInYear_leap_iff]
  show 365 * (y + 1 - 1) + (y + 1 - 1) / 4 + (y + 1 - 1) / 400 - (y + 1 - 1) / 100 =
    365 * (y - 1) + (y - 1) / 4 + (y - 1) / 400 - (y - 1) / 100 +
      if y % 4 = 0 ∧ (y % 100 ≠ 0 ∨ y % 400 = 0) then 366 else 365
  simp only [Nat.add_sub_cancel]
  split
  · omega
  · rename_i hn
    by_cases h4 : y % 4 = 0
    · have h100 : y % 100 = 0 := by
        by_contra hc; exact hn ⟨h4, Or.inl hc⟩
      have h400 : y % 400 ≠ 0 := fun hc => hn ⟨h4, Or.inr hc⟩
      omega
    · omega

theorem yearOfs_one : yearOfs 1 = 0 := rfl

theorem yearOfs_mono {a b : Nat} (ha : 1 ≤ a) (h : a ≤ b) :
    yearOfs a ≤ yearOfs b := by
  induction b with
  | zero => omega
  | succ b ih =>
    rcases Nat.lt_or_ge a (b + 1) with h' | h'
    · have h1 := ih (by omega)
      have h2 : yearOfs b ≤ yearOfs (b + 1) := by
        rw [yearOfs_succ (by omega : 1 ≤ b)]; omega
      omega
    · have he : a = b + 1 := by omega
      rw [he]

theorem yearOfs_strict {a b : Nat} (ha : 1 ≤ a) (h : a < b) :
    yearOfs a < yearOfs b := by
  have h1 : yearOfs a + daysInYear a = yearOfs (a + 1) := (yearOfs_succ ha).symm
  have h2 : yearOfs (a + 1) ≤ yearOfs b := yearOfs_mono (by omega) (by omega)
  have h3 := daysInYear_ge a
  omega

theorem yearOfs_era (k : Nat) : yearOfs (400 * k + 1) = 146097 * k := by
  unfold yearOfs
  omega

/-- The year walk lands on the year whose offset brackets the day count,
preserving the total and leaving a valid day-of-year. -/
theorem splitYear_spec : ∀ (fuel y n : Nat), 1 ≤ y → n < 365 * fuel →
    yearOfs (splitYear fuel y n).1 + (splitYear fuel y n).2 = yearOfs y + n ∧
    (splitYear fuel y n).2 < daysInYear (splitYear fuel y n).1 ∧
    1 ≤ (splitYear fuel y n).1 := by
  intro fuel
  induction fuel with
  | zero => intro y n _ h; omega
  | succ fuel ih =>
    intro y n hy h
    unfold splitYear
    by_cases hc : n < daysInYear y
    · simp [hc]; omega
    · simp [hc]
      have hd := daysInYear_ge y
      have hrec := ih (y + 1) (n - daysInYear y) (by omega) (by omega)
      have hs : yearOfs (y + 1) = yearOfs y + daysInYear y := yearOfs_succ hy
      omega

/-- The month walk lands on the month whose offset brackets the
day-of-year, producing a valid (month, day) pair. -/
theorem splitMonth_spec : ∀ (fuel y m doy : Nat), 1 ≤ m → 13 ≤ m + fuel →
    monthOfs y m + doy < monthOfs y 13 →
    monthOfs y (splitMonth fuel y m doy).1 + ((splitMonth fuel y m doy).2 - 1)
      = monthOfs y m + doy ∧
    1 ≤ (splitMonth fuel y m doy).2 ∧
    (splitMonth fuel y m doy).2 ≤ daysInMonth y (splitMonth fuel y m doy).1 ∧
    1 ≤ (splitMonth fuel y m doy).1 ∧ (splitMonth fuel y m doy).1 ≤ 12 := by
  intro fuel
  induction fuel with
  | zero =>
    intro y m doy hm hf hlt
    have : monthOfs y 13 ≤ monthOfs y m := monthOfs_mono y (by omega)
    omega
  | succ fuel ih =>
    intro y m doy hm hf hlt
    unfold splitMonth
    by_cases hc : doy < daysInMonth y m
    · simp [hc]
      have hle : m ≤ 12 := by
        by_contra hgt
        have : monthOfs y 13 ≤ monthOfs y m := monthOfs_mono y (by omega)
        omega
      omega
    · simp [hc]
      have hstep : monthOfs y (m + 1) = monthOfs y m + daysInMonth y m :=
        monthOfs_succ y m hm
      have hrec := ih y (m + 1) (doy - daysInMonth y m) (by omega) (by omega) (by omega)
      omega

/-- Recomposing the civil date of a day number gives the day number back,
and the produced date is calendar-valid. -/
theorem rd_rdInv (n : Nat) :
    rd (rdInv n).1 (rdInv n).2.1 (rdInv n).2.2 = n ∧
    1 ≤ (rdInv n).1 ∧
    1 ≤ (rdInv n).2.1 ∧ (rdInv n).2.1 ≤ 12 ∧
    1 ≤ (rdInv n).2.2 ∧ (rdInv n).2.2 ≤ daysInMonth (rdInv n).1 (rdInv n).2.1 := by
  have hy := splitYear_spec 500 (400 * (n / 146097) + 1) (n % 146097)
    (by omega) (by omega)
  have hm := splitMonth_spec 12 (splitYear 500 (400 * (n / 146097) + 1) (n % 146097)).1 1
    (splitYear 500 (400 * (n / 146097) + 1) (n % 146097)).2
    (by omega) (by omega)
    (by rw [monthOfs_13, monthOfs_one]; omega)
  rw [monthOfs_one] at hm
  rw [yearOfs_era (n / 146097)] at hy
  have e1 : (rdInv n).1 = (splitYear 500 (400 * (n / 146097) + 1) (n % 146097)).1 := rfl
  have e2 : (rdInv n).2.1 = (splitMonth 12
    (splitYear 500 (400 * (n / 146097) + 1) (n % 146097)).1 1
    (splitYear 500 (400 * (n / 146097) + 1) (n % 146097)).2).1 := rfl
  have e3 : (rdInv n).2.2 = (splitMonth 12
    (splitYear 500 (400 * (n / 146097) + 1) (n % 146097)).1 1
    (splitYear 500 (400 * (n / 146097) + 1) (n % 146097)).2).2 := rfl
  unfold rd
  rw [e1, e2, e3]
  omega

/-- Day numbers below the offset of year `yb` decode to a year below `yb`. -/
theorem rdInv_year_lt {n yb : Nat} (hb : 1 ≤ yb) (h : n < yearOfs yb) :
    (rdInv n).1 < yb := by
  have hy := splitYear_spec 500 (400 * (n / 146097) + 1) (n % 146097)
    (by omega) (by omega)
  rw [yearOfs_era (n / 146097)] at hy
  have e1 : (rdInv n).1 = (splitYear 500 (400 * (n / 146097) + 1) (n % 146097)).1 := rfl
  have h1 : yearOfs (rdInv n).1 ≤ n := by rw [e1]; omega
  by_contra hge
  have : yearOfs yb ≤ yearOfs (rdInv n).1 := yearOfs_mono hb (by omega)
  omega

/-- A valid civil date stays strictly before the next year's offset. -/
theorem rd_lt_next {y m d : Nat} (hy : 1 ≤ y) (hm1 : 1 ≤ m) (hm2 : m ≤ 12)
    (hd1 : 1 ≤ d) (hd2 : d ≤ daysInMonth y m) : rd y m d < yearOfs (y + 1) := by
  have h1 : monthOfs y m + daysInMonth y m = monthOfs y (m + 1) :=
    (monthOfs_succ y m hm1).symm
  have h2 : monthOfs y (m + 1) ≤ monthOfs y 13 := monthOfs_mono y (by omega)
  have h3 : monthOfs y 13 = daysInYear y := monthOfs_13 y
  have h4 : yearOfs (y + 1) = yearOfs y + daysInYear y := yearOfs_succ hy
  unfold rd
  omega

theorem rd_ge (y m d : Nat) : yearOfs y ≤ rd y m d := by unfold rd; omega

/-! ## Fields-of-a-timestamp level: model of Python `datetime`'s value
(naive fields plus optional `tzinfo`). -/

/-- The seven value fields of a Python `datetime` (no tzinfo). -/
structure DTF where
  year : Nat
  month : Nat
  day : Nat
  hour : Nat
  minute : Nat
  second : Nat
  micro : Nat
deriving DecidableEq

/-- Calendar validity exactly as enforced by the `datetime` constructor. -/
def validDTF (f : DTF) : Bool :=
  1 ≤ f.year && f.year ≤ 9999 && 1 ≤ f.month && f.month ≤ 12 &&
  1 ≤ f.day && f.day ≤ daysInMonth f.year f.month &&
  f.hour ≤ 23 && f.minute ≤ 59 && f.second ≤ 59 && f.micro ≤ 999999

/-- Seconds from 0001-01-01 00:00:00 to the fields (microseconds carried
separately throughout, as all offsets are whole minutes). -/
def toSecs (f : DTF) : Nat :=
  rd f.year f.month f.day * 86400 + f.hour * 3600 + f.minute * 60 + f.second

/-- Fields of a second count from 0001-01-01 00:00:00 (inverse of `toSecs`). -/
def dtfOfSecs (n micro : Nat) : DTF :=
  let c := rdInv (n / 86400)
  let sod := n % 86400
  ⟨c.1, c.2.1, c.2.2, sod / 3600, sod % 3600 / 60, sod % 60, micro⟩

theorem toSecs_dtfOfSecs (n micro : Nat) : toSecs (dtfOfSecs n micro) = n := by
  have h := rd_rdInv (n / 86400)
  unfold toSecs dtfOfSecs
  simp only
  omega

theorem dtfOfSecs_valid {n : Nat} {micro : Nat} (hn : n < yearOfs 10000 * 86400)
    (hm : micro ≤ 999999) : validDTF (dtfOfSecs n micro) = true := by
  have h := rd_rdInv (n / 86400)
  have hylt : (rdInv (n / 86400)).1 < 10000 := rdInv_year_lt (by omega) (by omega)
  unfold validDTF dtfOfSecs
  simp only [Bool.and_eq_true, decide_eq_true_eq]
  omega

/-- Python `tzinfo` as the engine observes it: a named IANA zone
(`ZoneInfo(name)`) or a fixed UTC offset in minutes
(`datetime.timezone`, as produced by ISO-8601 offsets). -/
inductive Tz where
  | zone (name : String)
  | off (minutes : Int)
deriving DecidableEq

/-- A Python `datetime`: fields plus optional tzinfo (None = naive). -/
structure DT where
  f : DTF
  tz : Option Tz
deriving DecidableEq

/-- Day of the last Sunday of month `m` of year `y` (day 0 of the
calendar, 0001-01-01, is a Monday, so a day number is a Sunday exactly
when it is ≡ 6 mod 7). -/
def lastSunday (y m : Nat) : Nat :=
  let dim := daysInMonth y m
  dim - (rd y m dim + 1) % 7

/-- EU DST rule for Europe/Amsterdam on local (wall-clock) fields, with
PEP-495 fold = 0 readings at the ambiguous/missing hours: DST runs from
the last Sunday of March 03:00 local (02:00 CET) to the last Sunday of
October 03:00 local (fold 0 picks the first, CEST, reading of the
ambiguous 02:00–02:59 hour). -/
def amsDSTLocal (f : DTF) : Bool :=
  if 4 ≤ f.month ∧ f.month ≤ 9 then true
  else if f.month = 3 then
    decide (lastSunday f.year 3 < f.day ∨ (f.day = lastSunday f.year 3 ∧ 3 ≤ f.hour))
  else if f.month = 10 then
    decide (f.day < lastSunday f.year 10 ∨ (f.day = lastSunday f.year 10 ∧ f.hour < 3))
  else false

/-- Offset (minutes east of UTC) of a named zone at given local fields —
the model of `ZoneInfo.utcoffset`.  The repository only ever attaches
"Europe/Amsterdam" (and defines a UTC constant); other names are modeled
as UTC. -/
def zoneOffLocal (name : String) (f : DTF) : Int :=
  if name = "Europe/Amsterdam" then (if amsDSTLocal f then 120 else 60) else 0

/-- Offset of a tzinfo value at given fields (`utcoffset`), in minutes. -/
def utcoffsetOf : Tz → DTF → Int
  | .zone n, f => zoneOffLocal n f
  | .off m, _ => m

/-- UTC timestamp, in seconds from 0001-01-01 00:00:00 UTC, of an aware
datetime (for a naive one this is just its local seconds). -/
def instSecs (d : DT) : Int :=
  (toSecs d.f : Int) - 60 * (match d.tz with
    | some tz => utcoffsetOf tz d.f
    | none => 0)

/-- EU DST rule decided on the UTC instant (transitions at 01:00 UTC). -/
def amsDSTutc (u : Int) : Bool :=
  let g := dtfOfSecs u.toNat 0
  if 4 ≤ g.month ∧ g.month ≤ 9 then true
  else if g.month = 3 then
    decide (lastSunday g.year 3 < g.day ∨ (g.day = lastSunday g.year 3 ∧ 1 ≤ g.hour))
  else if g.month = 10 then
    decide (g.day < lastSunday g.year 10 ∨ (g.day = lastSunday g.year 10 ∧ g.hour < 1))
  else false

/-- Offset of a named zone at a UTC instant. -/
def zoneOffUTC (name : String) (u : Int) : Int :=
  if name = "Europe/Amsterdam" then (if amsDSTutc u then 120 else 60) else 0

/-- Model of `datetime.astimezone(ZoneInfo(name))` on an aware value:
same instant, fields re-expressed in the target zone.  The result's
tzinfo is recorded by the UTC offset the zone has at that instant — the
only attribute of the attached `ZoneInfo` the engine ever observes
(via `utcoffset` in `isoformat`, equality, and further conversions). -/
def astimezone (d : DT) (name : String) : DT :=
  let u : Int := instSecs d
  let o : Int := zoneOffUTC name u
  { f := dtfOfSecs (u + 60 * o).toNat d.f.micro, tz := some (.off o) }

/-- Python `==` on datetimes: naive values compare by fields, aware
values by UTC instant (microseconds included); a naive and an aware
value are never equal. -/
def dtEq (a b : DT) : Bool :=
  match a.tz, b.tz with
  | none, none => a.f == b.f
  | some _, some _ => instSecs a == instSecs b && a.f.micro == b.f.micro
  | _, _ => false

/-! ## Decimal digit rendering (for strftime / isoformat). -/

def digitChar (n : Nat) : Char :=
  match n % 10 with
  | 0 => '0' | 1 => '1' | 2 => '2' | 3 => '3' | 4 => '4'
  | 5 => '5' | 6 => '6' | 7 => '7' | 8 => '8' | _ => '9'

def pad2 (n : Nat) : List Char := [digitChar (n / 10), digitChar n]

def pad4 (n : Nat) : List Char :=
  [digitChar (n / 1000), digitChar (n / 100), digitChar (n / 10), digitChar n]

def pad6 (n : Nat) : List Char :=
  [digitChar (n / 100000), digitChar (n / 10000), digitChar (n / 1000),
   digitChar (n / 100), digitChar (n / 10), digitChar n]

/-! ## The strftime format strings the engine can render with.

`Fmt` enumerates the concrete format strings appearing in the code and
in the record configurations: `.dmy` is `"%d-%m-%Y"`, `.ymd` is
`"%Y-%m-%d"`, `.dmyHMS` is `"%d-%m-%Y %H:%M:%S"` and `.ymdHMS` is
`"%Y-%m-%d %H:%M:%S"`.  Only `strftime` (encode, line 85) ever runs —
the `strptime` calls all sit in the dead datetime-decode branch.  A
format value is never the empty string, so Python's `if fmt:`
truthiness test (line 85) is simply presence in the map. -/
inductive Fmt where
  | dmy | ymd | dmyHMS | ymdHMS
deriving DecidableEq

def timeChars (f : DTF) : List Char :=
  pad2 f.hour ++ ':' :: pad2 f.minute ++ ':' :: pad2 f.second

/-- Model of `datetime.strftime` for the four formats (none of them has
`%z`/`%f`, so tzinfo and microseconds do not appear in the output). -/
def strftimeChars : Fmt → DTF → List Char
  | .dmy, f => pad2 f.day ++ '-' :: pad2 f.month ++ '-' :: pad4 f.year
  | .ymd, f => pad4 f.year ++ '-' :: pad2 f.month ++ '-' :: pad2 f.day
  | .dmyHMS, f => pad2 f.day ++ '-' :: pad2 f.month ++ '-' :: pad4 f.year ++ ' ' :: timeChars f
  | .ymdHMS, f => pad4 f.year ++ '-' :: pad2 f.month ++ '-' :: pad2 f.day ++ ' ' :: timeChars f

def strftime (fmt : Fmt) (f : DTF) : String := String.mk (strftimeChars fmt f)

/-- Offset suffix of `datetime.isoformat` for a whole-minute utcoffset:
sign, two-digit hours, colon, two-digit minutes. -/
def offChars (o : Int) : List Char :=
  (if o < 0 then '-' else '+') :: (pad2 (o.natAbs / 60) ++ ':' :: pad2 (o.natAbs % 60))

/-- Model of `datetime.isoformat()` (default separator `T`, timespec
`auto`: microseconds printed only when nonzero, offset printed only for
aware values). -/
def isoChars (d : DT) : List Char :=
  pad4 d.f.year ++ '-' :: pad2 d.f.month ++ '-' :: pad2 d.f.day ++ 'T' :: timeChars d.f
  ++ (if d.f.micro = 0 then [] else '.' :: pad6 d.f.micro)
  ++ (match d.tz with
      | none => []
      | some tz => offChars (utcoffsetOf tz d.f))

def isoformat (d : DT) : String := String.mk (isoChars d)

/-! ## The engine's configuration, record classes and values. -/

/-- Per-class formatting configuration: the four `ClassVar`s of
`BaseModel` (`DATE_FORMAT_MAP`, `DATE_INPUT_FORMATS`, `OUTPUT_TZ_NAME`,
`INPUT_NAIVE_TZ_NAME`), with format strings represented by `Fmt`.
Only `DATE_FORMAT_MAP` and `OUTPUT_TZ_NAME` are ever read by live code
(both on encode); `DATE_INPUT_FORMATS` and `INPUT_NAIVE_TZ_NAME` are
consulted only inside the dead datetime-decode branch. -/
structure Config where
  dateFormatMap : List (String × Fmt)
  dateInputFormats : List (String × List Fmt)
  outputTzName : String
  inputNaiveTzName : String
deriving DecidableEq

/-- The `BaseModel` defaults: empty format maps, Amsterdam both ways.
No subclass in the repository overrides any of the four class vars. -/
def defaultCfg : Config :=
  ⟨[], [], "Europe/Amsterdam", "Europe/Amsterdam"⟩

/-- The record (dataclass) classes of the repository: the timeline
models (`timeline.py`), the MDTO models (`mdto.py`), plus `pReq`, a
probe subclass used as a concrete input to exercise the generic engine
on a defaultless record-typed field (a combination no repository class
happens to contain). -/
inductive RName where
  | contentChunk | timelineDocument | timeline
  | informatietype | parlementairType | taal | organisatieType | organisatie
  | relatie | bestand | technischeContext | informatieobject | mdto
  | pReq
deriving DecidableEq

/-- Python runtime values as the engine sees them: None, scalars,
datetimes, lists, string-keyed dicts, and dataclass instances (tagged
with their class; the field list of a well-formed instance is in
declaration order, as produced by construction). -/
inductive Val where
  | vnone
  | vstr (s : String)
  | vint (n : Int)
  | vbool (b : Bool)
  | vdt (d : DT)
  | vlist (xs : List Val)
  | vdict (kvs : List (String × Val))
  | vrec (r : RName) (fv : List (String × Val))

/-- One dataclass field descriptor: name, declared annotation and the
default (`default` or evaluated `default_factory`) when one exists.
Because every model module opens with `from __future__ import
annotations` (PEP 563), the declared type recorded in the dataclass
field descriptor — `fields(cls)[i].type` — is the annotation STRING
exactly as written in the class body (`"str"`, `"datetime"`,
`"Optional[str]"`, `"List[ContentChunk]"`, `"Informatietype"`, ...),
never a resolved type object; nothing in the repository resolves it
(`typing.get_type_hints` is never called). -/
structure FieldD where
  fname : String
  ty : String
  dflt : Option Val

def defaultInformatietype : Val :=
  .vrec .informatietype [("label", .vnone), ("uri", .vnone)]

def defaultParlementairType : Val :=
  .vrec .parlementairType [("label", .vnone), ("uri", .vnone)]

def defaultTaal : Val := .vrec .taal [("label", .vnone), ("uri", .vnone)]

def defaultOrganisatieType : Val :=
  .vrec .organisatieType [("label", .vnone), ("uri", .vnone)]

def defaultOrganisatie : Val :=
  .vrec .organisatie
    [("naam", .vnone), ("organisatieType", defaultOrganisatieType), ("uri", .vnone)]

def defaultTechnischeContext : Val :=
  .vrec .technischeContext [("configuratieSchema", .vnone), ("doctype", .vnone)]

def defaultInformatieobject : Val :=
  .vrec .informatieobject
    [("identificatie", .vnone), ("titel", .vnone), ("status", .vnone),
     ("informatietype", defaultInformatietype),
     ("parlementairType", defaultParlementairType),
     ("dossierNummer", .vnone), ("ondernummer", .vnone), ("vergaderjaar", .vnone),
     ("taal", defaultTaal), ("beschikbaarVanaf", .vnone),
     ("organisatie", defaultOrganisatie),
     ("relaties", .vlist []), ("bestanden", .vlist []),
     ("technischeContext", defaultTechnischeContext)]

/-- Field descriptors of every record class, as declared in
`timeline.py` and `mdto.py`: names, PEP 563 annotation strings and
defaults, in declaration order. -/
def recFields : RName → List FieldD
  | .contentChunk =>
    [⟨"chunk_identifier", "str", none⟩, ⟨"content", "str", none⟩]
  | .timelineDocument =>
    [⟨"id", "str", none⟩, ⟨"title", "str", none⟩,
     ⟨"created_at", "datetime", none⟩,
     ⟨"publisher", "Optional[str]", some .vnone⟩,
     ⟨"summary", "Optional[str]", some .vnone⟩,
     ⟨"publisher_link", "Optional[str]", some .vnone⟩,
     ⟨"content_text", "List[ContentChunk]", some (.vlist [])⟩,
     ⟨"informatieobject", "Dict[str, Any]", some (.vdict [])⟩]
  | .timeline =>
    [⟨"identifier", "str", none⟩, ⟨"name", "str", none⟩,
     ⟨"documents", "List[TimelineDocument]", some (.vlist [])⟩,
     ⟨"beschrijving", "Optional[str]", some .vnone⟩,
     ⟨"gegenereerd_op", "Optional[datetime]", some .vnone⟩]
  | .informatietype =>
    [⟨"label", "Optional[str]", some .vnone⟩,
     ⟨"uri", "Optional[str]", some .vnone⟩]
  | .parlementairType =>
    [⟨"label", "Optional[str]", some .vnone⟩,
     ⟨"uri", "Optional[str]", some .vnone⟩]
  | .taal =>
    [⟨"label", "Optional[str]", some .vnone⟩,
     ⟨"uri", "Optional[str]", some .vnone⟩]
  | .organisatieType =>
    [⟨"label", "Optional[str]", some .vnone⟩,
     ⟨"uri", "Optional[str]", some .vnone⟩]
  | .organisatie =>
    [⟨"naam", "Optional[str]", some .vnone⟩,
     ⟨"organisatieType", "OrganisatieType", some defaultOrganisatieType⟩,
     ⟨"uri", "Optional[str]", some .vnone⟩]
  | .relatie => [⟨"targetIdentificatie", "Optional[str]", some .vnone⟩]
  | .bestand =>
    [⟨"weergaveURL", "Optional[str]", some .vnone⟩,
     ⟨"documentURL", "Optional[str]", some .vnone⟩,
     ⟨"bestandsformaat", "Optional[Dict[str, str]]", some .vnone⟩]
  | .technischeContext =>
    [⟨"configuratieSchema", "Optional[str]", some .vnone⟩,
     ⟨"doctype", "Optional[str]", some .vnone⟩]
  | .informatieobject =>
    [⟨"identificatie", "Optional[str]", some .vnone⟩,
     ⟨"titel", "Optional[str]", some .vnone⟩,
     ⟨"status", "Optional[str]", some .vnone⟩,
     ⟨"informatietype", "Informatietype", some defaultInformatietype⟩,
     ⟨"parlementairType", "ParlementairType", some defaultParlementairType⟩,
     ⟨"dossierNummer", "Optional[str]", some .vnone⟩,
     ⟨"ondernummer", "Optional[str]", some .vnone⟩,
     ⟨"vergaderjaar", "Optional[str]", some .vnone⟩,
     ⟨"taal", "Taal", some defaultTaal⟩,
     ⟨"beschikbaarVanaf", "Optional[str]", some .vnone⟩,
     ⟨"organisatie", "Organisatie", some defaultOrganisatie⟩,
     ⟨"relaties", "List[Relatie]", some (.vlist [])⟩,
     ⟨"bestanden", "List[Bestand]", some (.vlist [])⟩,
     ⟨"technischeContext", "TechnischeContext", some defaultTechnischeContext⟩]
  | .mdto =>
    [⟨"informatieobject", "Informatieobject", some defaultInformatieobject⟩]
  | .pReq => [⟨"inner", "Informatietype", none⟩]

/-- Per-class configuration; every class inherits the `BaseModel`
defaults unchanged. -/
def recCfg (_ : RName) : Config := defaultCfg


/-! ## Python `==` on values. -/

mutual
/-- Python `==` on the values the engine handles: datetimes compare by
`dtEq`, dataclass instances by class and field values, dicts by their
entries.  Dict comparison here is entry-list comparison: Python's dict
equality is insertion-order-insensitive, but every dict the codec
produces or compares preserves insertion order and has distinct keys,
on which the two notions agree. -/
def pyEq : Val → Val → Bool
  | .vnone, .vnone => true
  | .vstr a, .vstr b => a == b
  | .vint a, .vint b => a == b
  | .vbool a, .vbool b => a == b
  | .vdt a, .vdt b => dtEq a b
  | .vlist a, .vlist b => pyEqList a b
  | .vdict a, .vdict b => pyEqKVs a b
  | .vrec r a, .vrec r' b => r == r' && pyEqKVs a b
  | _, _ => false

def pyEqList : List Val → List Val → Bool
  | [], [] => true
  | x :: xs, y :: ys => pyEq x y && pyEqList xs ys
  | _, _ => false

def pyEqKVs : List (String × Val) → List (String × Val) → Bool
  | [], [] => true
  | (k, v) :: xs, (k', v') :: ys => k == k' && pyEq v v' && pyEqKVs xs ys
  | _, _ => false
end

mutual
/-- Values built only from None, scalars, lists and dicts — a generic
tree with no datetimes and no dataclass instances inside. -/
def plainTree : Val → Bool
  | .vnone => true
  | .vstr _ => true
  | .vint _ => true
  | .vbool _ => true
  | .vlist xs => plainTreeList xs
  | .vdict kvs => plainTreeKVs kvs
  | .vdt _ => false
  | .vrec _ _ => false

def plainTreeList : List Val → Bool
  | [] => true
  | x :: xs => plainTree x && plainTreeList xs

def plainTreeKVs : List (String × Val) → Bool
  | [] => true
  | (_, v) :: xs => plainTree v && plainTreeKVs xs
end

/-! ## Encoding: `BaseModel.to_dict` / `_serialize_value`
(`base.py` lines 39-97). -/

mutual
/-- Model of `BaseModel._serialize_value(self, name, value, typ)`.  The
`typ` argument is unused by the source; `cfg` is the owning instance's
class configuration.  The `_serialize_field` hook returns `MISSING` in
`BaseModel` and no repository subclass overrides it, so the hook test
always falls through.  A nested dataclass is serialized with its own
class's `to_dict` (every record class inherits it from `BaseModel`, so
the descriptor-walk fallback of lines 89-92 is dead code here). -/
def serializeValue (cfg : Config) (name : String) : Val → Val
  | .vnone => .vnone
  | .vdt d =>
    let d1 : DT := if d.tz = none then ⟨d.f, some (.zone cfg.outputTzName)⟩ else d
    let d2 := astimezone d1 cfg.outputTzName
    match cfg.dateFormatMap.lookup name with
    | some fmt => .vstr (strftime fmt d2.f)
    | none => .vstr (isoformat d2)
  | .vrec r fv => .vdict (serializeFields (recCfg r) fv)
  | .vlist xs => .vlist (serializeList cfg name xs)
  | .vdict kvs => .vdict (serializeEntries cfg name kvs)
  | .vstr s => .vstr s
  | .vint n => .vint n
  | .vbool b => .vbool b

/-- Model of `to_dict`'s field loop: serialize each stored field under
its own name (a well-formed instance stores exactly its declared fields
in declaration order, so walking the stored pairs is walking
`fields(self)`). -/
def serializeFields (cfg : Config) : List (String × Val) → List (String × Val)
  | [] => []
  | (n, v) :: rest => (n, serializeValue cfg n v) :: serializeFields cfg rest

/-- List/tuple branch: each element is serialized under the owning
field's name (line 94). -/
def serializeList (cfg : Config) (name : String) : List Val → List Val
  | [] => []
  | v :: rest => serializeValue cfg name v :: serializeList cfg name rest

/-- Dict branch: keys unchanged, values serialized under the owning
field's name (line 96). -/
def serializeEntries (cfg : Config) (name : String) : List (String × Val) →
    List (String × Val)
  | [] => []
  | (k, v) :: rest => (k, serializeValue cfg name v) :: serializeEntries cfg name rest
end

/-- Model of `BaseModel.to_dict` on an instance value. -/
def toDict : Val → Val
  | .vrec r fv => .vdict (serializeFields (recCfg r) fv)
  | v => v

/-! ## Decoding: `BaseModel.from_dict` / `_deserialize_value`
(`base.py` lines 47-62 and 99-193).

Every model module opens with `from __future__ import annotations`
(PEP 563), so the `typ` handed to `_deserialize_value` — taken from
`fields(cls)[i].type` — is the annotation string, never a resolved
type object.  Every type test of `_deserialize_value` therefore
evaluates to a constant, and the function reduces to a passthrough;
the definitions below record exactly that reduction. -/

/-- Decode-side failures that can actually escape: `typeError` models
the Python `TypeError` of running `name in data` on a non-iterable
input, `keyError` a mapping `KeyError` from `data[name]`. -/
inductive Err where
  | typeError (msg : String)
  | keyError (k : String)

/-- Substring test on character lists (Python `in` on strings). -/
def strHasSub (hay pat : List Char) : Bool :=
  if pat.isPrefixOf hay then true
  else
    match hay with
    | [] => false
    | _ :: t => strHasSub t pat

/-- Python `key in data` as `from_dict` runs it on its argument: dict
membership for mappings; substring containment when the argument is a
string; element equality when it is a list; `TypeError` otherwise. -/
def pyContains (data : Val) (key : String) : Except Err Bool :=
  match data with
  | .vdict kvs => .ok (kvs.any (fun kv => kv.1 == key))
  | .vstr s => .ok (strHasSub s.data key.data)
  | .vlist xs => .ok (xs.any (fun v => match v with | .vstr s => s == key | _ => false))
  | _ => .error (.typeError "argument is not iterable")

/-- Python `data[key]` with a string key. -/
def pyIndex (data : Val) (key : String) : Except Err Val :=
  match data with
  | .vdict kvs =>
    match kvs.lookup key with
    | some v => .ok v
    | none => .error (.keyError key)
  | .vstr _ => .error (.typeError "string indices must be integers")
  | .vlist _ => .error (.typeError "list indices must be integers")
  | _ => .error (.typeError "object is not subscriptable")

/-- Per-field values of `cls(**kwargs)`: keyword argument if present,
else the field default, else `TypeError`. -/
def constructFields : List FieldD → List (String × Val) →
    Option (List (String × Val))
  | [], _ => some []
  | fd :: rest, kw =>
    match (match kw.lookup fd.fname with
           | some v => some v
           | none => fd.dflt),
          constructFields rest kw with
    | some v, some fv => some ((fd.fname, v) :: fv)
    | _, _ => none

/-- `cls(**kwargs)` for a record class. -/
def construct (r : RName) (kw : List (String × Val)) : Except Err Val :=
  match constructFields (recFields r) kw with
  | some fv => .ok (.vrec r fv)
  | none => .error (.typeError "missing required positional argument")

/-- Model of `BaseModel._deserialize_value(name, value, typ)` (lines
99-193) with `typ` the PEP 563 annotation string.  Every type test of
the source is constant on a `str` instance:
* the `_deserialize_field` hook (line 101) returns `MISSING` in
  `BaseModel` and no repository subclass overrides it;
* `origin = get_origin(typ)` (line 105) is `None` on a string;
* `hasattr(typ, "__dataclass_fields__")` (lines 109 and 174) and
  `hasattr(typ, "from_dict")` (lines 114 and 122) are `False` — a `str`
  instance has neither attribute — so the `typ()` null-coalescing and
  the `from_dict` delegation never run;
* `origin is Union` (lines 126 and 133) is `False`, so `Optional` is
  never unwrapped;
* `typ is datetime` (line 132) is `False` (`typ` is the string
  `"datetime"`, not the class), so the parse chain of lines 135-170 and
  the `ValueError` of line 171 are unreachable;
* `origin in (list, List, tuple)` (line 180) is `False`, and with
  `origin = None` the `origin and "dict" in str(origin)` test
  (line 185) is falsy, so the container recursions never run.
What remains is line 119 (`None` in, `None` out) and line 193 (any
other value returned unchanged). -/
def deserializeValue (_name : String) (value : Val) (_typ : String) : Val :=
  match value with
  | .vnone => .vnone
  | v => v

/-- The field loop of `from_dict` (lines 50-61), building `kwargs` in
field order: a present key is decoded — that is, passed through —
while an absent key is skipped when the field has a default or default
factory and contributes `None` otherwise (line 61). -/
def buildKw : List FieldD → Val → Except Err (List (String × Val))
  | [], _ => .ok []
  | fd :: rest, data => do
    let present ← pyContains data fd.fname
    if present then do
      let raw ← pyIndex data fd.fname
      let v := deserializeValue fd.fname raw fd.ty
      let tail ← buildKw rest data
      pure ((fd.fname, v) :: tail)
    else
      if fd.dflt.isSome then buildKw rest data
      else do
        let tail ← buildKw rest data
        pure ((fd.fname, Val.vnone) :: tail)

/-- Model of `BaseModel.from_dict` (lines 47-62): build the keyword
dictionary, then call `cls(**kwargs)`. -/
def fromDict (r : RName) (data : Val) : Except Err Val := do
  let kw ← buildKw (recFields r) data
  construct r kw

/-! ## Basic lemmas about the decoder and the encoder. -/

theorem error_bind {α β : Type} (e : Err) (k : α → Except Err β) :
    (Bind.bind (Except.error e) k : Except Err β) = Except.error e := rfl

theorem ok_bind {α β : Type} (a : α) (k : α → Except Err β) :
    (Bind.bind (Except.ok a) k : Except Err β) = k a := rfl

/-- `_deserialize_value` is the identity: the `None` branch returns
`None` and every other value falls through to line 193. -/
theorem deserializeValue_id (name : String) (v : Val) (typ : String) :
    deserializeValue name v typ = v := by
  cases v <;> rfl

mutual
theorem pyEq_refl : ∀ v : Val, pyEq v v = true
  | .vnone => rfl
  | .vstr _ => by simp [pyEq]
  | .vint _ => by simp [pyEq]
  | .vbool _ => by simp [pyEq]
  | .vdt d => by cases h : d.tz <;> simp [pyEq, dtEq, h]
  | .vlist xs => by simp only [pyEq]; exact pyEqList_refl xs
  | .vdict kvs => by simp only [pyEq]; exact pyEqKVs_refl kvs
  | .vrec r fv => by
    simp only [pyEq, Bool.and_eq_true, beq_self_eq_true, true_and]
    exact pyEqKVs_refl fv

theorem pyEqList_refl : ∀ xs : List Val, pyEqList xs xs = true
  | [] => rfl
  | x :: xs => by
    simp only [pyEqList, Bool.and_eq_true]
    exact ⟨pyEq_refl x, pyEqList_refl xs⟩

theorem pyEqKVs_refl : ∀ kvs : List (String × Val), pyEqKVs kvs kvs = true
  | [] => rfl
  | (k, v) :: kvs => by
    simp only [pyEqKVs, Bool.and_eq_true, beq_self_eq_true, true_and]
    exact ⟨pyEq_refl v, pyEqKVs_refl kvs⟩
end

mutual
theorem serialize_plain (cfg : Config) (name : String) :
    ∀ v : Val, plainTree v = true → serializeValue cfg name v = v
  | .vnone, _ => rfl
  | .vstr _, _ => rfl
  | .vint _, _ => rfl
  | .vbool _, _ => rfl
  | .vdt _, h => by simp [plainTree] at h
  | .vrec _ _, h => by simp [plainTree] at h
  | .vlist xs, h => by
    simp only [plainTree] at h
    simp only [serializeValue, Val.vlist.injEq]
    exact serializeList_plain cfg name xs h
  | .vdict kvs, h => by
    simp only [plainTree] at h
    simp only [serializeValue, Val.vdict.injEq]
    exact serializeEntries_plain cfg name kvs h

theorem serializeList_plain (cfg : Config) (name : String) :
    ∀ xs : List Val, plainTreeList xs = true → serializeList cfg name xs = xs
  | [], _ => rfl
  | x :: xs, h => by
    simp only [plainTreeList, Bool.and_eq_true] at h
    simp only [serializeList, List.cons.injEq]
    exact ⟨serialize_plain cfg name x h.1, serializeList_plain cfg name xs h.2⟩

theorem serializeEntries_plain (cfg : Config) (name : String) :
    ∀ kvs : List (String × Val), plainTreeKVs kvs = true →
      serializeEntries cfg name kvs = kvs
  | [], _ => rfl
  | (k, v) :: kvs, h => by
    simp only [plainTreeKVs, Bool.and_eq_true] at h
    simp only [serializeEntries, List.cons.injEq, Prod.mk.injEq, true_and]
    exact ⟨serialize_plain cfg name v h.1, serializeEntries_plain cfg name kvs h.2⟩
end

/-- The `to_dict` field loop is the identity on an instance whose
stored values are all plain trees. -/
theorem serializeFields_plain (cfg : Config) :
    ∀ fv : List (String × Val), plainTreeKVs fv = true →
      serializeFields cfg fv = fv
  | [], _ => rfl
  | (n, v) :: fv, h => by
    simp only [plainTreeKVs, Bool.and_eq_true] at h
    simp only [serializeFields, List.cons.injEq, Prod.mk.injEq, true_and]
    exact ⟨serialize_plain cfg n v h.1, serializeFields_plain cfg fv h.2⟩

theorem lookup_skip {β : Type} (k : String) :
    ∀ (pre rest : List (String × β)), (∀ p ∈ pre, p.1 ≠ k) →
      (pre ++ rest).lookup k = rest.lookup k
  | [], _, _ => by simp
  | (a, b) :: pre, rest, h => by
    have ha : (k == a) = false := by
      simp only [beq_eq_false_iff_ne, ne_eq]
      exact fun e => h (a, b) (by simp) (by simp [e])
    simp only [List.cons_append, List.lookup, ha]
    exact lookup_skip k pre rest (fun p hp => h p (by simp [hp]))

/-- `cls(**kwargs)` with keyword arguments exactly the declared field
names in order (distinct names; `kwPre` is the already-consumed prefix
of the keyword dict) fills each field from its keyword. -/
theorem constructFields_aligned :
    ∀ (fds : List FieldD) (kwseg kwPre : List (String × Val)),
      kwseg.map Prod.fst = fds.map FieldD.fname →
      (∀ p ∈ kwPre, ∀ fd ∈ fds, (p : String × Val).1 ≠ fd.fname) →
      (fds.map FieldD.fname).Nodup →
      constructFields fds (kwPre ++ kwseg) = some kwseg
  | [], kwseg, kwPre, hkeys, _, _ => by
    have he : kwseg = [] := by cases kwseg <;> simp_all
    subst he
    rfl
  | fd :: fds, kwseg, kwPre, hkeys, hdisj, hnod => by
    cases kwseg with
    | nil => simp at hkeys
    | cons p kwrest =>
      obtain ⟨n, w⟩ := p
      simp only [List.map_cons, List.cons.injEq] at hkeys
      obtain ⟨hn, hrest⟩ := hkeys
      subst hn
      have hlook : (kwPre ++ (fd.fname, w) :: kwrest).lookup fd.fname = some w := by
        rw [lookup_skip fd.fname kwPre _ (fun p hp => hdisj p hp fd (by simp))]
        simp [List.lookup]
      have hnodc := List.nodup_cons.mp hnod
      have hdisj' : ∀ p ∈ kwPre ++ [(fd.fname, w)], ∀ fd' ∈ fds,
          (p : String × Val).1 ≠ fd'.fname := by
        intro p hp fd' hfd'
        rcases List.mem_append.mp hp with hp1 | hp2
        · exact hdisj p hp1 fd' (by simp [hfd'])
        · have hpe : p = (fd.fname, w) := by simpa using hp2
          subst hpe
          show fd.fname ≠ fd'.fname
          intro he
          exact hnodc.1 (he ▸ List.mem_map_of_mem FieldD.fname hfd')
      have hassoc : kwPre ++ (fd.fname, w) :: kwrest
          = (kwPre ++ [(fd.fname, w)]) ++ kwrest := by
        simp
      have hrec := constructFields_aligned fds kwrest (kwPre ++ [(fd.fname, w)])
        hrest hdisj' hnodc.2
      rw [hassoc] at hlook ⊢
      simp only [constructFields, hlook, hrec]

theorem recNames_nodup : ∀ r : RName, ((recFields r).map FieldD.fname).Nodup := by
  intro r
  cases r <;> decide

/-- The `from_dict` field loop on a mapping whose keys are exactly the
remaining declared names in order (distinct names overall; `fvPre` is
the already-consumed prefix of the mapping): every field is present and
its value passes through, so the loop returns the remaining entries
unchanged. -/
theorem buildKw_aligned :
    ∀ (fds : List FieldD) (fvseg fvPre : List (String × Val)),
      fvseg.map Prod.fst = fds.map FieldD.fname →
      (∀ p ∈ fvPre, ∀ fd ∈ fds, (p : String × Val).1 ≠ fd.fname) →
      (fds.map FieldD.fname).Nodup →
      buildKw fds (.vdict (fvPre ++ fvseg)) = .ok fvseg
  | [], fvseg, fvPre, hkeys, _, _ => by
    have he : fvseg = [] := by cases fvseg <;> simp_all
    subst he
    rfl
  | fd :: fds, fvseg, fvPre, hkeys, hdisj, hnod => by
    cases fvseg with
    | nil => simp at hkeys
    | cons p seg =>
      obtain ⟨n, v⟩ := p
      simp only [List.map_cons, List.cons.injEq] at hkeys
      obtain ⟨hn, hrest⟩ := hkeys
      subst hn
      have hnodc := List.nodup_cons.mp hnod
      have hpc : pyContains (.vdict (fvPre ++ (fd.fname, v) :: seg)) fd.fname
          = .ok true := by
        show Except.ok ((fvPre ++ (fd.fname, v) :: seg).any
            (fun kv => kv.1 == fd.fname)) = _
        simp
      have hpi : pyIndex (.vdict (fvPre ++ (fd.fname, v) :: seg)) fd.fname
          = .ok v := by
        show (match (fvPre ++ (fd.fname, v) :: seg).lookup fd.fname with
             | some w => Except.ok w
             | none => Except.error (Err.keyError fd.fname)) = _
        rw [lookup_skip fd.fname fvPre _ (fun p hp => hdisj p hp fd (by simp))]
        simp [List.lookup]
      have hdisj' : ∀ p ∈ fvPre ++ [(fd.fname, v)], ∀ fd' ∈ fds,
          (p : String × Val).1 ≠ fd'.fname := by
        intro p hp fd' hfd'
        rcases List.mem_append.mp hp with hp1 | hp2
        · exact hdisj p hp1 fd' (by simp [hfd'])
        · have hpe : p = (fd.fname, v) := by simpa using hp2
          subst hpe
          show fd.fname ≠ fd'.fname
          intro he
          exact hnodc.1 (he ▸ List.mem_map_of_mem FieldD.fname hfd')
      have htl := buildKw_aligned fds seg (fvPre ++ [(fd.fname, v)])
        hrest hdisj' hnodc.2
      rw [show (fvPre ++ [(fd.fname, v)]) ++ seg = fvPre ++ (fd.fname, v) :: seg
        from by simp] at htl
      simp only [buildKw, hpc, ok_bind, reduceIte, hpi, deserializeValue_id, htl]
      rfl

theorem serializeList_map (cfg : Config) (name : String) :
    ∀ xs : List Val, serializeList cfg name xs = xs.map (serializeValue cfg name)
  | [] => rfl
  | x :: xs => by rw [serializeList, List.map_cons, serializeList_map cfg name xs]

theorem serializeEntries_map (cfg : Config) (name : String) :
    ∀ kvs : List (String × Val),
      serializeEntries cfg name kvs
        = kvs.map (fun kv => (kv.1, serializeValue cfg name kv.2))
  | [] => rfl
  | (k, v) :: kvs => by
    rw [serializeEntries, List.map_cons, serializeEntries_map cfg name kvs]

/-! ## C4: what decoding `null` actually yields. -/

/-- C4 counterexample: `null` against the record-typed field
`MDTO.informatieobject` does not decode to the zero-argument default
instance — the `hasattr` tests of lines 109/114 run on the annotation
string `"Informatieobject"` and fail, so the stored value is `None`,
which is not `Informatieobject()`. -/
theorem record_null_not_coalesced :
    fromDict .mdto (.vdict [("informatieobject", .vnone)])
      = .ok (.vrec .mdto [("informatieobject", .vnone)]) ∧
    Val.vnone ≠ defaultInformatieobject := by
  refine ⟨rfl, fun h => ?_⟩
  simp [defaultInformatieobject] at h

/-- C4 amended: decoding `null` yields `null` for every declared
annotation, record-typed fields included (the zero-argument coalescing
of lines 109-118 never fires); a plain-optional scalar field's `null`
stays `null` as well. -/
theorem null_decodes_to_null :
    (∀ (name typ : String), deserializeValue name .vnone typ = .vnone) ∧
    (∀ name : String, deserializeValue name .vnone "Optional[str]" = .vnone) ∧
    fromDict .mdto (.vdict [("informatieobject", .vnone)])
      = .ok (.vrec .mdto [("informatieobject", .vnone)]) :=
  ⟨fun _ _ => rfl, fun _ => rfl, rfl⟩

/-! ## C9: Optional wrapping versus bare record types on `null`. -/

/-- C9 counterexample: the claimed contrast does not exist — `null`
against the bare record annotation `"Informatietype"` also yields
`null`, not the zero-argument default the claim's mechanism would
require for the unwrapped type. -/
theorem bare_record_null_not_coalesced :
    deserializeValue "informatietype" .vnone "Informatietype" = .vnone ∧
    Val.vnone ≠ defaultInformatietype := by
  refine ⟨rfl, fun h => ?_⟩
  simp [defaultInformatietype] at h

/-- C9 amended: decoding `null` against `Optional[Informatietype]`
yields `null`, as the claim concludes — but not because the null check
precedes Optional unwrapping: decoding `null` yields `null` for every
annotation, the bare record annotation included, so Optional wrapping
changes nothing. -/
theorem optional_record_null_yields_null :
    (∀ name : String,
      deserializeValue name .vnone "Optional[Informatietype]" = .vnone) ∧
    (∀ (name typ : String), deserializeValue name .vnone typ = .vnone) ∧
    (∀ name : String,
      deserializeValue name .vnone "Optional[Informatietype]"
        = deserializeValue name .vnone "Informatietype") :=
  ⟨fun _ => rfl, fun _ _ => rfl, fun _ => rfl⟩

/-! ## C2: no datetime parsing happens on decode. -/

/-- A decoded `TimelineDocument` with the given stored `created_at`
value and every other optional field at its declared default. -/
def tdWith (c : Val) : Val :=
  .vrec .timelineDocument
    [("id", .vstr "i"), ("title", .vstr "t"), ("created_at", c),
     ("publisher", .vnone), ("summary", .vnone), ("publisher_link", .vnone),
     ("content_text", .vlist []), ("informatieobject", .vdict [])]

/-- C2 counterexample: the fallback chain is never consulted — even a
string ISO-8601 parsing would accept comes back as the raw string, and
`"01-02-2024"` decodes to the string `"01-02-2024"`, not to the
day=1/month=2/year=2024 datetime the claim predicts (the `typ` reaching
the datetime test is the string `"datetime"`, so the branch never
runs). -/
theorem datetime_strings_decode_unparsed :
    fromDict .timelineDocument
        (.vdict [("id", .vstr "i"), ("title", .vstr "t"),
                 ("created_at", .vstr "2024-06-01T12:00:00+02:00")])
      = .ok (tdWith (.vstr "2024-06-01T12:00:00+02:00")) ∧
    fromDict .timelineDocument
        (.vdict [("id", .vstr "i"), ("title", .vstr "t"),
                 ("created_at", .vstr "01-02-2024")])
      = .ok (tdWith (.vstr "01-02-2024")) ∧
    (Val.vstr "01-02-2024"
      ≠ Val.vdt ⟨⟨2024, 2, 1, 0, 0, 0, 0⟩, some (.zone "Europe/Amsterdam")⟩) :=
  ⟨rfl, rfl, fun h => Val.noConfusion h⟩

/-- C2 amended: decode performs no datetime parsing at all —
`_deserialize_value` returns every raw value unchanged (the configured
`DATE_INPUT_FORMATS`/`DATE_FORMAT_MAP` are never read on decode); in
particular a date/time field's raw string is stored as that string. -/
theorem datetime_decode_passthrough :
    (∀ (name : String) (v : Val) (typ : String),
      deserializeValue name v typ = v) ∧
    (∀ s : String,
      fromDict .timelineDocument
          (.vdict [("id", .vstr "i"), ("title", .vstr "t"),
                   ("created_at", .vstr s)])
        = .ok (tdWith (.vstr s))) :=
  ⟨deserializeValue_id, fun _ => rfl⟩

/-! ## C6: unparseable datetime input raises nothing. -/

/-- C6 counterexample: decoding the spec's own example `"not-a-date"`
does not fail — `from_dict` succeeds and stores the raw string; the
`ValueError` of line 171 sits in the unreachable datetime branch, so
no error carrying the field name and raw value is ever raised. -/
theorem unparseable_datetime_no_error :
    fromDict .timelineDocument
        (.vdict [("id", .vstr "i"), ("title", .vstr "t"),
                 ("created_at", .vstr "not-a-date")])
      = .ok (tdWith (.vstr "not-a-date")) := rfl

/-- C6 amended: decoding a date/time field never fails, whatever the
raw string: the parse chain and the line-171 `ValueError` are dead
code, so `from_dict` succeeds and stores the raw value unchanged. -/
theorem datetime_decode_never_fails (s : String) :
    fromDict .timelineDocument
        (.vdict [("id", .vstr "i"), ("title", .vstr "t"),
                 ("created_at", .vstr s)])
      = .ok (tdWith (.vstr s)) := rfl

/-! ## C5: timezone attachment happens on encode only. -/

/-- C5 counterexample: decode attaches no timezone — a zone-less
datetime string comes back as the very same string, not as a datetime
stamped with `INPUT_NAIVE_TZ_NAME`. -/
theorem naive_string_decodes_to_itself :
    fromDict .timelineDocument
        (.vdict [("id", .vstr "i"), ("title", .vstr "t"),
                 ("created_at", .vstr "2024-06-01 12:00:00")])
      = .ok (tdWith (.vstr "2024-06-01 12:00:00")) ∧
    (Val.vstr "2024-06-01 12:00:00"
      ≠ Val.vdt ⟨⟨2024, 6, 1, 12, 0, 0, 0⟩, some (.zone "Europe/Amsterdam")⟩) :=
  ⟨rfl, fun h => Val.noConfusion h⟩

/-- C5 amended: the encode half is real — a zone-less datetime value
is serialized exactly as if stamped with the record type's
`OUTPUT_TZ_NAME`, and `INPUT_NAIVE_TZ_NAME` plays no part in encoding.
The decode half is vacuous: no string is parsed, so
`INPUT_NAIVE_TZ_NAME` is never attached — decode returns the raw value
unchanged. -/
theorem timezone_attachment_encode_only :
    (∀ (cfg : Config) (name : String) (f : DTF),
      serializeValue cfg name (.vdt ⟨f, none⟩)
        = serializeValue cfg name (.vdt ⟨f, some (.zone cfg.outputTzName)⟩)) ∧
    (∀ (cfg : Config) (z name : String) (d : DT),
      serializeValue { cfg with inputNaiveTzName := z } name (.vdt d)
        = serializeValue cfg name (.vdt d)) ∧
    (∀ (name : String) (v : Val) (typ : String),
      deserializeValue name v typ = v) :=
  ⟨fun _ _ _ => rfl, fun _ _ _ _ => rfl, deserializeValue_id⟩

/-! ## C7: unknown keys are ignored. -/

theorem any_key_filter (P : String → Bool) (es : List (String × Val)) (k : String)
    (hk : P k = true) :
    (es.filter (fun kv => P kv.1)).any (fun kv => kv.1 == k)
      = es.any (fun kv => kv.1 == k) := by
  induction es with
  | nil => rfl
  | cons kv rest ih =>
    by_cases hP : P kv.1
    · simp [List.filter_cons, hP, List.any_cons, ih]
    · have hne : (kv.1 == k) = false := by
        cases hbe : kv.1 == k
        · rfl
        · rw [eq_of_beq hbe] at hP; exact absurd hk hP
      simp [List.filter_cons, hP, List.any_cons, hne, ih]

theorem lookup_key_filter (P : String → Bool) (es : List (String × Val)) (k : String)
    (hk : P k = true) :
    (es.filter (fun kv => P kv.1)).lookup k = es.lookup k := by
  induction es with
  | nil => rfl
  | cons kv rest ih =>
    by_cases hP : P kv.1
    · cases hbe : (k == kv.1)
      · simp [List.filter_cons, hP, List.lookup, hbe, ih]
      · simp [List.filter_cons, hP, List.lookup, hbe]
    · have hne : (k == kv.1) = false := by
        cases hbe : k == kv.1
        · rfl
        · rw [← eq_of_beq hbe] at hP; exact absurd hk hP
      simp [List.filter_cons, hP, List.lookup, hne, ih]

/-- The field loop reads the input mapping only at declared field
names, so entries whose keys a filter keeping every declared name
would drop do not affect it. -/
theorem buildKw_filter (P : String → Bool) :
    ∀ (fds : List FieldD) (es : List (String × Val)),
      (∀ fd ∈ fds, P fd.fname = true) →
      buildKw fds (.vdict es)
        = buildKw fds (.vdict (es.filter (fun kv => P kv.1)))
  | [], _, _ => rfl
  | fd :: rest, es, hP => by
    simp only [buildKw, pyContains, ok_bind, any_key_filter P es
        fd.fname (hP fd (by simp)), pyIndex,
      lookup_key_filter P es fd.fname (hP fd (by simp)),
      buildKw_filter P rest es (fun fd' h => hP fd' (by simp [h]))]

/-- C7: `from_dict` reads only the declared field names from its input
mapping, so a mapping containing unknown keys decodes identically to
the same mapping with the unknown keys filtered out; concretely,
decoding an `Informatietype` mapping carrying an unknown key succeeds
and ignores it. -/
theorem unknown_keys_ignored :
    (∀ (r : RName) (es : List (String × Val)),
      fromDict r (.vdict es)
        = fromDict r
            (.vdict (es.filter (fun kv => (recFields r).any (fun fd => fd.fname == kv.1))))) ∧
    fromDict RName.informatietype (.vdict [("label", .vstr "L"), ("junk", .vint 9)])
      = .ok (.vrec .informatietype [("label", .vstr "L"), ("uri", .vnone)]) := by
  refine ⟨?_, rfl⟩
  intro r es
  show (do
    let kw ← buildKw (recFields r) (.vdict es)
    construct r kw : Except Err Val) = _
  rw [buildKw_filter (fun k => (recFields r).any (fun fd => fd.fname == k))
    (recFields r) es (fun fd h => List.any_eq_true.mpr ⟨fd, h, by simp⟩)]
  rfl

/-! ## C8: there is no shape-mismatch error. -/

/-- C8 counterexample: decoding a scalar where a mapping was expected
does not raise any shape error — `Informatietype.from_dict("oops")`
succeeds (string membership finds none of the field names, every field
falls back to its default) and returns the all-defaults instance. -/
theorem scalar_for_mapping_decodes_without_error :
    fromDict RName.informatietype (.vstr "oops") = .ok defaultInformatietype := rfl

/-- C8 amended: the engine defines no shape-mismatch error and performs
no shape checking.  A string where a mapping was expected is consumed
by `from_dict`'s `in` test as a character container (yielding a default
instance); a non-iterable scalar there surfaces Python's own
`TypeError` from the `in` test; and a value of any runtime shape in any
declared-annotation position — typed-list, typed-dict or scalar —
passes through `_deserialize_value` unchanged, those branches being
dead code. -/
theorem shape_mismatch_unchecked :
    fromDict RName.informatietype (.vstr "oops") = .ok defaultInformatietype ∧
    fromDict RName.informatietype (.vint 5)
      = .error (.typeError "argument is not iterable") ∧
    (∀ (name : String) (n : Int),
      deserializeValue name (.vint n) "List[ContentChunk]" = .vint n) ∧
    (∀ (name : String) (n : Int),
      deserializeValue name (.vint n) "Dict[str, Any]" = .vint n) ∧
    (∀ (name : String) (n : Int),
      deserializeValue name (.vint n) "str" = .vint n) :=
  ⟨rfl, rfl, fun _ _ => rfl, fun _ _ => rfl, fun _ _ => rfl⟩

/-! ## C10: container elements inherit the owning field's name on
encode; on decode they pass through untouched. -/

/-- The class configuration of the C10 encode example:
`DATE_FORMAT_MAP =, "stamps" ↦ "%d-%m-%Y %H:%M:%S"`. -/
def cfg10 : Config := ⟨[("stamps", .dmyHMS)], [], "Europe/Amsterdam", "Europe/Amsterdam"⟩

/-- An aware datetime used by the C10 example. -/
def dtEx : DT := ⟨⟨2024, 6, 1, 12, 0, 0, 0⟩, some (.off 120)⟩

/-- C10 counterexample: the decode half is false — a datetime element
of a typed-list field is not parsed with the field's configured input
formats (nor at all): the list passes through with its string elements
intact. -/
theorem typed_list_elements_not_parsed :
    deserializeValue "stamps" (.vlist [.vstr "01-02-2024"]) "List[datetime]"
      = .vlist [.vstr "01-02-2024"] ∧
    (Val.vstr "01-02-2024"
      ≠ Val.vdt ⟨⟨2024, 2, 1, 0, 0, 0, 0⟩, some (.zone "Europe/Amsterdam")⟩) :=
  ⟨rfl, fun h => Val.noConfusion h⟩

set_option maxRecDepth 4000 in
/-- C10 amended: the encode half is real — when serializing a list- or
dict-valued field, every element is serialized under the owning field's
name, so a datetime element is rendered with that field's
`DATE_FORMAT_MAP` entry (not plain ISO-8601) and the output timezone.
The decode half is not: container values pass through
`_deserialize_value` untouched, their elements unparsed (the typed-list
and typed-dict branches are dead code). -/
theorem container_elements_use_field_config :
    (∀ (cfg : Config) (name : String) (xs : List Val),
      serializeValue cfg name (.vlist xs) = .vlist (xs.map (serializeValue cfg name))) ∧
    (∀ (cfg : Config) (name : String) (kvs : List (String × Val)),
      serializeValue cfg name (.vdict kvs)
        = .vdict (kvs.map (fun kv => (kv.1, serializeValue cfg name kv.2)))) ∧
    serializeValue cfg10 "stamps" (.vlist [.vdt dtEx])
      = .vlist [.vstr "01-06-2024 12:00:00"] ∧
    serializeValue cfg10 "stamps" (.vlist [.vdt dtEx])
      ≠ .vlist [.vstr (isoformat (astimezone dtEx "Europe/Amsterdam"))] ∧
    (∀ (name : String) (xs : List Val) (typ : String),
      deserializeValue name (.vlist xs) typ = .vlist xs) ∧
    (∀ (name : String) (kvs : List (String × Val)) (typ : String),
      deserializeValue name (.vdict kvs) typ = .vdict kvs) := by
  refine ⟨?_, ?_, rfl, ?_, fun _ _ _ => rfl, fun _ _ _ => rfl⟩
  · intro cfg name xs
    show Val.vlist (serializeList cfg name xs) = _
    rw [serializeList_map]
  · intro cfg name kvs
    show Val.vdict (serializeEntries cfg name kvs) = _
    rw [serializeEntries_map]
  · intro h
    rw [show serializeValue cfg10 "stamps" (Val.vlist [Val.vdt dtEx])
      = Val.vlist [Val.vstr "01-06-2024 12:00:00"] from rfl] at h
    rw [show isoformat (astimezone dtEx "Europe/Amsterdam")
      = "2024-06-01T12:00:00+02:00" from rfl] at h
    simp at h

/-! ## C3: what `from_dict` does with a missing defaultless field. -/

/-- C3 counterexample: a missing defaultless record-typed field does
not receive the record type's zero-argument default — `from_dict`
stores `None` (line 61), exactly as a present-but-null key does; the
claim's parenthetical is refuted even though its missing-equals-null
clause holds.  `pReq` is the probe subclass with the defaultless
record-typed field `inner : Informatietype`. -/
theorem missing_record_field_not_defaulted :
    fromDict .pReq (.vdict []) = .ok (.vrec .pReq [("inner", .vnone)]) ∧
    fromDict .pReq (.vdict [("inner", .vnone)])
      = .ok (.vrec .pReq [("inner", .vnone)]) ∧
    Val.vnone ≠ defaultInformatietype := by
  refine ⟨rfl, rfl, fun h => ?_⟩
  simp [defaultInformatietype] at h

/-- C3 amended: `from_dict` does not decode `null` for a missing
defaultless field — line 61 assigns `None` to the keyword argument
directly, bypassing `_deserialize_value`.  Since decoding `null`
against every declared annotation also yields `null`, a missing key
and a present-but-null value nonetheless produce the same decoded
field value — `None` — for every field; neither ever yields a record
default. -/
theorem missing_field_passes_none_directly :
    (∀ (fd : FieldD) (rest : List FieldD) (data : Val),
      pyContains data fd.fname = .ok false →
      fd.dflt = none →
      buildKw (fd :: rest) data
        = (do
            let tail ← buildKw rest data
            pure ((fd.fname, Val.vnone) :: tail))) ∧
    (∀ (name typ : String), deserializeValue name .vnone typ = .vnone) ∧
    fromDict .pReq (.vdict []) = fromDict .pReq (.vdict [("inner", Val.vnone)]) := by
  refine ⟨?_, fun _ _ => rfl, rfl⟩
  intro fd rest data hc hd
  show (do
    let present ← pyContains data fd.fname
    if present then do
      let raw ← pyIndex data fd.fname
      let v := deserializeValue fd.fname raw fd.ty
      let tail ← buildKw rest data
      pure ((fd.fname, v) :: tail)
    else
      if fd.dflt.isSome then buildKw rest data
      else do
        let tail ← buildKw rest data
        pure ((fd.fname, Val.vnone) :: tail) : Except Err (List (String × Val))) = _
  rw [hc, ok_bind, if_neg (by simp), hd]
  rfl

/-! ## C1: the round trip. -/

/-- A well-formed instance whose stored values are all plain trees:
the stored fields are exactly the declared ones in declaration order,
and no stored value contains a datetime or a nested dataclass
instance. -/
def plainInst (r : RName) (fv : List (String × Val)) : Bool :=
  (fv.map Prod.fst == (recFields r).map FieldD.fname) && plainTreeKVs fv

/-- A `TimelineDocument` instance whose `created_at` is timezone-aware,
otherwise minimal. -/
def awareDoc : List (String × Val) :=
  [("id", .vstr "d1"), ("title", .vstr "t"),
   ("created_at", .vdt ⟨⟨2024, 6, 1, 12, 0, 0, 0⟩, some (.zone "Europe/Amsterdam")⟩),
   ("publisher", .vnone), ("summary", .vnone), ("publisher_link", .vnone),
   ("content_text", .vlist []), ("informatieobject", .vdict [])]

set_option maxRecDepth 4000 in
/-- C1 counterexample: even a timezone-aware `TimelineDocument` fails
the round trip — `to_dict` renders `created_at` as the ISO string
`"2024-06-01T12:00:00+02:00"`, and `from_dict` stores that string
unchanged (no parsing happens), so the decoded instance holds a string
where the original held a datetime, and Python `==` rejects the
pair. -/
theorem datetime_field_breaks_roundtrip :
    fromDict .timelineDocument (toDict (.vrec .timelineDocument awareDoc))
      = .ok (.vrec .timelineDocument
          [("id", .vstr "d1"), ("title", .vstr "t"),
           ("created_at", .vstr "2024-06-01T12:00:00+02:00"),
           ("publisher", .vnone), ("summary", .vnone), ("publisher_link", .vnone),
           ("content_text", .vlist []), ("informatieobject", .vdict [])]) ∧
    pyEq (.vrec .timelineDocument awareDoc)
        (.vrec .timelineDocument
          [("id", .vstr "d1"), ("title", .vstr "t"),
           ("created_at", .vstr "2024-06-01T12:00:00+02:00"),
           ("publisher", .vnone), ("summary", .vnone), ("publisher_link", .vnone),
           ("content_text", .vlist []), ("informatieobject", .vdict [])])
      = false := ⟨rfl, rfl⟩

/-- C1 amended: the round trip holds exactly on the fragment the codec
treats as inert — instances whose stored values contain no datetime
and no nested dataclass: there `to_dict` emits the stored mapping
itself and `from_dict` rebuilds the identical instance.  A datetime
field (aware or naive) comes back as its rendered string, and a nested
record as its dict, breaking `==` (see the counterexample). -/
theorem plain_instance_roundtrip (r : RName) (fv : List (String × Val))
    (h : plainInst r fv = true) :
    fromDict r (toDict (.vrec r fv)) = .ok (.vrec r fv) := by
  unfold plainInst at h
  simp only [Bool.and_eq_true, beq_iff_eq] at h
  obtain ⟨hkeys, hplain⟩ := h
  have hser : serializeFields (recCfg r) fv = fv :=
    serializeFields_plain (recCfg r) fv hplain
  show (do
    let kw ← buildKw (recFields r) (toDict (.vrec r fv))
    construct r kw : Except Err Val) = _
  rw [show toDict (.vrec r fv) = .vdict (serializeFields (recCfg r) fv) from rfl,
    hser]
  have hbk := buildKw_aligned (recFields r) fv [] hkeys (by simp) (recNames_nodup r)
  rw [List.nil_append] at hbk
  rw [hbk, ok_bind]
  show (match constructFields (recFields r) fv with
        | some fv => Except.ok (Val.vrec r fv)
        | none => Except.error (Err.typeError "missing required positional argument"))
      = .ok (.vrec r fv)
  rw [show constructFields (recFields r) fv = some fv from by
    have hca := constructFields_aligned (recFields r) fv [] hkeys (by simp)
      (recNames_nodup r)
    simpa using hca]

/-- C1 witness: a concrete plain `Informatietype` instance round-trips
to itself. -/
theorem plain_instance_roundtrip_witness :
    fromDict .informatietype (toDict (.vrec .informatietype
        [("label", .vstr "besluit"), ("uri", .vnone)]))
      = .ok (.vrec .informatietype [("label", .vstr "besluit"), ("uri", .vnone)]) :=
  plain_instance_roundtrip .informatietype
    [("label", .vstr "besluit"), ("uri", .vnone)] (by rfl)

end OBM
